import Mathlib

/-!
Shallow embedding of the Rajis Sarees Store application (src/app.py).

The four persisted tables (Product, CartItem, Order, OrderItem) become
structures, the database session becomes an explicit `DB` state value, and
each Flask route relevant to the cart/checkout/order subsystem becomes a
function from a `DB` (plus the request inputs) to a result and a new `DB`.
Python integers are arbitrary precision, so integer columns are `Int`;
row ids and autoincrement counters are `Nat`.  Operations that would raise
an uncaught exception in Python (dereferencing a missing product row
through a lazy relationship) return `none`; an aborted request never
commits, so `none` carries no state change.
-/

structure Product where
  id : Nat
  name : String
  mrp : Int
  price : Int
  stock : Int
  image : String
  description : String
deriving DecidableEq

structure CartItem where
  id : Nat
  user_id : Nat
  product_id : Nat
  quantity : Int
deriving DecidableEq

structure Order where
  id : Nat
  order_code : String
  user_id : Nat
  payment_mode : String
  payment_status : String
  total_amount : Int
deriving DecidableEq

structure OrderItem where
  id : Nat
  order_id : Nat
  product_name : String
  price : Int
  quantity : Int
deriving DecidableEq

/-- The persisted state: one list per table, plus the autoincrement
counters the database would use for fresh primary keys. -/
structure DB where
  products : List Product
  cartItems : List CartItem
  orders : List Order
  orderItems : List OrderItem
  nextCartItemId : Nat
  nextOrderId : Nat
  nextOrderItemId : Nat
deriving DecidableEq

/-- Primary-key lookup, as in Product.query.get(pid). -/
def findProduct (db : DB) (pid : Nat) : Option Product :=
  db.products.find? (fun p => p.id == pid)

/-- Lazy relationship traversal item.product. -/
def productFor (db : DB) (it : CartItem) : Option Product :=
  findProduct db it.product_id

/-- CartItem.query.filter_by(user_id=uid).all(). -/
def cartFor (db : DB) (uid : Nat) : List CartItem :=
  db.cartItems.filter (fun it => it.user_id == uid)

/-- Primary-key lookup, as in CartItem.query.get(item_id). -/
def findCartItem (db : DB) (iid : Nat) : Option CartItem :=
  db.cartItems.find? (fun it => it.id == iid)

/-- Primary-key lookup, as in Order.query.get(order_id). -/
def findOrder (db : DB) (oid : Nat) : Option Order :=
  db.orders.find? (fun o => o.id == oid)

/-- The order.items relationship: OrderItem rows of one order. -/
def itemsOf (db : DB) (oid : Nat) : List OrderItem :=
  db.orderItems.filter (fun oi => oi.order_id == oid)

/-- Wall-clock time at one-second granularity, as broken down by
datetime.now(); both order-code generators read nothing finer. -/
structure DateTimeSec where
  year : Nat
  month : Nat
  day : Nat
  hour : Nat
  minute : Nat
  second : Nat
deriving DecidableEq

/-- Zero-padded two-digit strftime field. -/
def pad2 (n : Nat) : String :=
  if n < 10 then "0" ++ toString n else toString n

/-- The format string "%Y%m%d%H%M%S" applied by the checkout route. -/
def strftimeYmdHMS (d : DateTimeSec) : String :=
  toString d.year ++ pad2 d.month ++ pad2 d.day ++
    pad2 d.hour ++ pad2 d.minute ++ pad2 d.second

/-- Outcome of the checkout route: the three flash-and-redirect branches. -/
inductive CheckoutResult where
  | emptyCart : CheckoutResult
  | insufficientStock : String → CheckoutResult
  | placed : Order → CheckoutResult
deriving DecidableEq

/-- Outcome of the cart and admin routes: 404, 403, and the flashed
validation branches. -/
inductive CartResult where
  | notFound : CartResult
  | forbidden : CartResult
  | invalidQuantity : CartResult
  | notEnoughStock : CartResult
  | ok : CartResult
deriving DecidableEq

/-- The read-only validation pass of the checkout route: the name of the
first cart line whose quantity exceeds the current stock of its product,
`some none` when every line passes, `none` when a product row is missing
(the Python code would raise there). -/
def validateStock (db : DB) : List CartItem → Option (Option String)
  | [] => some none
  | it :: rest =>
    match productFor db it with
    | none => none
    | some p =>
      if it.quantity > p.stock then some (some p.name)
      else validateStock db rest

/-- Row update of item.product.stock -= item.quantity on one product row. -/
def decFn (pid : Nat) (qty : Int) (p : Product) : Product :=
  if p.id == pid then { p with stock := p.stock - qty } else p

/-- Mutation item.product.stock -= item.quantity on the products table. -/
def decrementStock (products : List Product) (pid : Nat) (qty : Int) : List Product :=
  products.map (decFn pid qty)

/-- One iteration of the commit loop of the checkout route on the state:
decrement the stock of the product of this line and append the snapshot
OrderItem for it. -/
def commitStep (oid : Nat) (db : DB) (it : CartItem) (p : Product) : DB :=
  { db with
      products := decrementStock db.products it.product_id it.quantity,
      orderItems := db.orderItems ++
        [{ id := db.nextOrderItemId, order_id := oid,
           product_name := p.name, price := p.price, quantity := it.quantity }],
      nextOrderItemId := db.nextOrderItemId + 1 }

/-- The commit loop of the checkout route: per cart line, decrement the
stock of its product, accumulate the total, and append a snapshot
OrderItem.  Later lines observe the stock decrements of earlier ones,
exactly as the shared identity-mapped rows do in the source. -/
def commitLines (oid : Nat) : DB → Int → List CartItem → Option (DB × Int)
  | db, total, [] => some (db, total)
  | db, total, it :: rest =>
    match productFor db it with
    | none => none
    | some p =>
      commitLines oid (commitStep oid db it p) (total + p.price * it.quantity) rest

/-- The checkout route (app.py lines 399 to 448): empty-cart guard, then
the read-only stock validation pass, then the commit pass, the final
total, and the cart clearing, committed as one unit. -/
def checkout (db : DB) (uid : Nat) (now : DateTimeSec) : Option (CheckoutResult × DB) :=
  let items := cartFor db uid
  if items.isEmpty then some (.emptyCart, db)
  else
    match validateStock db items with
    | none => none
    | some (some name) => some (.insufficientStock name, db)
    | some none =>
      let order0 : Order :=
        { id := db.nextOrderId,
          order_code := "ORD" ++ strftimeYmdHMS now,
          user_id := uid,
          payment_mode := "COD",
          payment_status := "Pending",
          total_amount := 0 }
      match commitLines order0.id { db with nextOrderId := db.nextOrderId + 1 } 0 items with
      | none => none
      | some (db1, total) =>
        let order : Order := { order0 with total_amount := total }
        some (.placed order,
          { db1 with
              orders := db1.orders ++ [order],
              cartItems := db1.cartItems.filter (fun it => !(it.user_id == uid)) })

/-- The generator expression sum(i.product.price * i.quantity for i in
cart_items); `none` when a product row is missing, since the Python code
raises there before any write. -/
def cartTotal (db : DB) : List CartItem → Option Int
  | [] => some 0
  | it :: rest =>
    match productFor db it with
    | none => none
    | some p =>
      match cartTotal db rest with
      | none => none
      | some t => some (p.price * it.quantity + t)

/-- The OrderItem rows appended by create_order, with autoincrement ids
starting at `startId`; also returns the next free id. -/
def mkOrderItems (db : DB) (oid : Nat) (startId : Nat) :
    List CartItem → Option (List OrderItem × Nat)
  | [] => some ([], startId)
  | it :: rest =>
    match productFor db it with
    | none => none
    | some p =>
      match mkOrderItems db oid (startId + 1) rest with
      | none => none
      | some (ois, nid) =>
        some ({ id := startId, order_id := oid, product_name := p.name,
                price := p.price, quantity := it.quantity } :: ois, nid)

/-- The helper create_order(payment_mode, payment_status) (app.py lines
110 to 135), used by the place-order COD and UPI routes.  `epochSecs` is
int(time.time()).  It performs no emptiness check and no stock check and
never touches product stock. -/
def create_order (db : DB) (uid : Nat) (payment_mode payment_status : String)
    (epochSecs : Nat) : Option (Order × DB) :=
  let cart_items := cartFor db uid
  match cartTotal db cart_items with
  | none => none
  | some total =>
    let order : Order :=
      { id := db.nextOrderId,
        order_code := "ORD" ++ toString epochSecs,
        user_id := uid,
        payment_mode := payment_mode,
        payment_status := payment_status,
        total_amount := total }
    match mkOrderItems db order.id db.nextOrderItemId cart_items with
    | none => none
    | some (ois, nid) =>
      some (order,
        { db with
            orders := db.orders ++ [order],
            orderItems := db.orderItems ++ ois,
            cartItems := db.cartItems.filter (fun it => !(it.user_id == uid)),
            nextOrderId := db.nextOrderId + 1,
            nextOrderItemId := nid })

/-- The add-to-cart route: 404 on a missing product, reject a
non-positive quantity, reject when existing + requested exceeds stock,
otherwise merge into the existing line of this user and product or
create a fresh line. -/
def add_to_cart (db : DB) (uid : Nat) (product_id : Nat) (qty : Int) : CartResult × DB :=
  match findProduct db product_id with
  | none => (.notFound, db)
  | some product =>
    if qty ≤ 0 then (.invalidQuantity, db)
    else
      let item := db.cartItems.find? (fun i => i.user_id == uid && i.product_id == product.id)
      let existing_qty := match item with | some i => i.quantity | none => 0
      if existing_qty + qty > product.stock then (.notEnoughStock, db)
      else
        match item with
        | some i =>
          let merged := db.cartItems.map
            (fun j => if j.id == i.id then { j with quantity := j.quantity + qty } else j)
          (.ok, { db with cartItems := merged })
        | none =>
          (.ok, { db with
              cartItems := db.cartItems ++
                [{ id := db.nextCartItemId, user_id := uid,
                   product_id := product.id, quantity := qty }],
              nextCartItemId := db.nextCartItemId + 1 })

/-- The cart update route: 404 on a missing line, 403 on a foreign line,
delete on a non-positive quantity, reject a quantity above stock,
otherwise overwrite the quantity. -/
def update_cart (db : DB) (uid : Nat) (item_id : Nat) (new_qty : Int) :
    Option (CartResult × DB) :=
  match findCartItem db item_id with
  | none => some (.notFound, db)
  | some item =>
    if item.user_id != uid then some (.forbidden, db)
    else if new_qty ≤ 0 then
      some (.ok, { db with cartItems := db.cartItems.filter (fun i => !(i.id == item.id)) })
    else
      match productFor db item with
      | none => none
      | some p =>
        if new_qty > p.stock then some (.notEnoughStock, db)
        else
          let updated := db.cartItems.map
            (fun j => if j.id == item.id then { j with quantity := new_qty } else j)
          some (.ok, { db with cartItems := updated })

/-- The cart removal route: get_or_404, owner check, delete. -/
def remove_cart_item (db : DB) (uid : Nat) (item_id : Nat) : CartResult × DB :=
  match findCartItem db item_id with
  | none => (.notFound, db)
  | some item =>
    if item.user_id != uid then (.forbidden, db)
    else (.ok, { db with cartItems := db.cartItems.filter (fun i => !(i.id == item.id)) })

/-- The admin stock update route: writes int(request.form) to the stock
column with no range check at all. -/
def admin_update_stock (db : DB) (is_admin : Bool) (pid : Nat) (newStock : Int) :
    CartResult × DB :=
  if !is_admin then (.forbidden, db)
  else
    match findProduct db pid with
    | none => (.notFound, db)
    | some _ =>
      let updated := db.products.map
        (fun p => if p.id == pid then { p with stock := newStock } else p)
      (.ok, { db with products := updated })

/-- The POST branch of the admin product edit route: overwrites name,
mrp, price, stock and description, and the image when a file was sent. -/
def admin_edit_product (db : DB) (is_admin : Bool) (pid : Nat)
    (name : String) (mrp price stock : Int) (description : String)
    (image : Option String) : CartResult × DB :=
  if !is_admin then (.forbidden, db)
  else
    match findProduct db pid with
    | none => (.notFound, db)
    | some _ =>
      let editRow : Product → Product := fun p =>
        { p with
            name := name
            mrp := mrp
            price := price
            stock := stock
            description := description
            image := image.getD p.image }
      let updated := db.products.map (fun p => if p.id == pid then editRow p else p)
      (.ok, { db with products := updated })

/-- The admin product delete route. -/
def admin_delete_product (db : DB) (is_admin : Bool) (pid : Nat) : CartResult × DB :=
  if !is_admin then (.forbidden, db)
  else
    match findProduct db pid with
    | none => (.notFound, db)
    | some _ =>
      (.ok, { db with products := db.products.filter (fun p => !(p.id == pid)) })

/-- The admin order status route: `new_status` is the optional form field
payment_status; a value outside the pair Pending, Paid is silently
ignored with a plain redirect, and an accepted value is written
regardless of the previous status. -/
def admin_update_order_status (db : DB) (is_admin : Bool) (order_id : Nat)
    (new_status : Option String) : CartResult × DB :=
  if !is_admin then (.forbidden, db)
  else
    match findOrder db order_id with
    | none => (.notFound, db)
    | some _ =>
      match new_status with
      | some s =>
        if s == "Pending" || s == "Paid" then
          let updated := db.orders.map
            (fun o => if o.id == order_id then { o with payment_status := s } else o)
          (.ok, { db with orders := updated })
        else (.ok, db)
      | none => (.ok, db)

/-- The admin verify-payment route: admin_required, then set the payment
status to Paid unconditionally. -/
def verify_payment (db : DB) (is_auth is_admin : Bool) (oid : Nat) : CartResult × DB :=
  if !is_auth || !is_admin then (.forbidden, db)
  else
    match findOrder db oid with
    | none => (.notFound, db)
    | some _ =>
      let updated := db.orders.map
        (fun o => if o.id == oid then { o with payment_status := "Paid" } else o)
      (.ok, { db with orders := updated })

/-- Sum of price times quantity over a list of order lines. -/
def lineSum (l : List OrderItem) : Int :=
  (l.map (fun oi => oi.price * oi.quantity)).sum

/-- The sum invariant of the spec: every committed order carries exactly
the sum of price times quantity over its own order lines. -/
abbrev ordersConsistent (db : DB) : Prop :=
  ∀ o ∈ db.orders, o.total_amount = lineSum (itemsOf db o.id)

/-- Autoincrement well-formedness: every stored row id is below the next
id its table will hand out, as database autoincrement guarantees. -/
abbrev idsFresh (db : DB) : Prop :=
  (∀ it ∈ db.cartItems, it.id < db.nextCartItemId) ∧
  (∀ o ∈ db.orders, o.id < db.nextOrderId) ∧
  (∀ oi ∈ db.orderItems, oi.order_id < db.nextOrderId ∧ oi.id < db.nextOrderItemId)

/-- The net effect of the commit loop on the products table. -/
def multiDecrement (products : List Product) : List CartItem → List Product
  | [] => products
  | it :: rest => multiDecrement (decrementStock products it.product_id it.quantity) rest

/-! ### Generic list helpers -/

/-- In a list whose keys are pairwise distinct, two members with the same
key are the same element. -/
lemma eq_of_pairwise_key {α : Type} {κ : Type} (key : α → κ) {l : List α}
    (h : l.Pairwise (fun a b => key a ≠ key b)) {a b : α}
    (ha : a ∈ l) (hb : b ∈ l) (hk : key a = key b) : a = b := by
  induction l with
  | nil => cases ha
  | cons x t ih =>
    rcases List.pairwise_cons.mp h with ⟨hx, ht⟩
    rcases List.mem_cons.mp ha with rfl | ha'
    · rcases List.mem_cons.mp hb with rfl | hb'
      · rfl
      · exact absurd hk (hx b hb')
    · rcases List.mem_cons.mp hb with rfl | hb'
      · exact absurd hk.symm (hx a ha')
      · exact ih ht ha' hb'

/-- A row update that does not change the searched key commutes with
row lookup. -/
lemma find?_map_same {α : Type} (f : α → α) (pred : α → Bool) (l : List α)
    (h : ∀ a, pred (f a) = pred a) :
    (l.map f).find? pred = (l.find? pred).map f := by
  induction l with
  | nil => rfl
  | cons a t ih =>
    by_cases hp : pred a = true
    · rw [List.map_cons, List.find?_cons_of_pos _ (by rw [h a]; exact hp),
        List.find?_cons_of_pos _ hp]
      rfl
    · rw [List.map_cons, List.find?_cons_of_neg _ (by rw [h a]; exact hp),
        List.find?_cons_of_neg _ hp, ih]

lemma decFn_id (pid : Nat) (qty : Int) (p : Product) : (decFn pid qty p).id = p.id := by
  unfold decFn; split <;> rfl

lemma decFn_name (pid : Nat) (qty : Int) (p : Product) : (decFn pid qty p).name = p.name := by
  unfold decFn; split <;> rfl

lemma decFn_price (pid : Nat) (qty : Int) (p : Product) : (decFn pid qty p).price = p.price := by
  unfold decFn; split <;> rfl

lemma lineSum_nil : lineSum [] = 0 := rfl

lemma lineSum_cons (oi : OrderItem) (l : List OrderItem) :
    lineSum (oi :: l) = oi.price * oi.quantity + lineSum l := by
  simp [lineSum]

/-- Looking a product up after a stock-only row update. -/
lemma find?_decrementStock (products : List Product) (pid0 : Nat) (q : Int) (pid : Nat) :
    (decrementStock products pid0 q).find? (fun p => p.id == pid) =
      (products.find? (fun p => p.id == pid)).map (decFn pid0 q) := by
  unfold decrementStock
  exact find?_map_same _ _ _ (fun a => by rw [decFn_id])

/-! ### Validation pass lemmas -/

/-- When every line passes the stock check, the validation pass accepts. -/
lemma validateStock_ok {db : DB} {items : List CartItem}
    (h : ∀ it ∈ items, ∃ p, productFor db it = some p ∧ it.quantity ≤ p.stock) :
    validateStock db items = some none := by
  induction items with
  | nil => rfl
  | cons it rest ih =>
    rcases h it (List.mem_cons_self it rest) with ⟨p, hp, hle⟩
    have hnot : ¬ it.quantity > p.stock := by omega
    simp only [validateStock, hp, if_neg hnot]
    exact ih (fun x hx => h x (List.mem_cons_of_mem _ hx))

/-- When the validation pass accepts, every line passed the stock check. -/
lemma validateStock_none_sound {db : DB} {items : List CartItem}
    (h : validateStock db items = some none) :
    ∀ it ∈ items, ∃ p, productFor db it = some p ∧ it.quantity ≤ p.stock := by
  induction items with
  | nil => intro it hit; cases hit
  | cons a rest ih =>
    intro it hit
    cases hp : productFor db a with
    | none => simp only [validateStock, hp] at h; cases h
    | some p =>
      simp only [validateStock, hp] at h
      by_cases hgt : a.quantity > p.stock
      · rw [if_pos hgt] at h; cases h
      · rw [if_neg hgt] at h
        rcases List.mem_cons.mp hit with rfl | hit'
        · exact ⟨p, hp, by omega⟩
        · exact ih h it hit'

/-- When some line exceeds the current stock of its product, the
validation pass rejects with the name of an offending product. -/
lemma validateStock_finds_bad {db : DB} {items : List CartItem}
    (hwf : ∀ it ∈ items, (productFor db it).isSome)
    (hbad : ∃ it ∈ items, ∃ p, productFor db it = some p ∧ it.quantity > p.stock) :
    ∃ name, validateStock db items = some (some name) ∧
      ∃ it ∈ items, ∃ p, productFor db it = some p ∧ p.name = name ∧ it.quantity > p.stock := by
  induction items with
  | nil => rcases hbad with ⟨it, hit, _⟩; cases hit
  | cons a rest ih =>
    rcases Option.isSome_iff_exists.mp (hwf a (List.mem_cons_self a rest)) with ⟨p, hp⟩
    by_cases hgt : a.quantity > p.stock
    · refine ⟨p.name, ?_, a, List.mem_cons_self a rest, p, hp, rfl, hgt⟩
      simp only [validateStock, hp, if_pos hgt]
    · have hbad' : ∃ it ∈ rest, ∃ q, productFor db it = some q ∧ it.quantity > q.stock := by
        rcases hbad with ⟨it, hit, q, hq, hgt'⟩
        rcases List.mem_cons.mp hit with rfl | hit'
        · rw [hp] at hq
          obtain rfl := Option.some.inj hq
          exact absurd hgt' hgt
        · exact ⟨it, hit', q, hq, hgt'⟩
      rcases ih (fun x hx => hwf x (List.mem_cons_of_mem _ hx)) hbad' with
        ⟨name, hv, it, hit, q, hq, hname, hgt'⟩
      refine ⟨name, ?_, it, List.mem_cons_of_mem _ hit, q, hq, hname, hgt'⟩
      simp only [validateStock, hp, if_neg hgt]
      exact hv

/-! ### Order item construction lemmas -/

/-- When every referenced product row exists, create_order builds one
snapshot per cart line, with sequential ids, the requested order id, and
a line sum equal to the cart total it charges. -/
lemma mkOrderItems_spec {db : DB} (oid : Nat) (items : List CartItem) :
    ∀ s : Nat, (∀ it ∈ items, (productFor db it).isSome) →
    ∃ ois nid, mkOrderItems db oid s items = some (ois, nid) ∧
      nid = s + items.length ∧
      (∀ oi ∈ ois, oi.order_id = oid) ∧
      cartTotal db items = some (lineSum ois) ∧
      ois.length = items.length := by
  induction items with
  | nil =>
    intro s _
    refine ⟨[], s, rfl, by simp, ?_, rfl, rfl⟩
    intro oi h
    cases h
  | cons it rest ih =>
    intro s hwf
    rcases Option.isSome_iff_exists.mp (hwf it (List.mem_cons_self it rest)) with ⟨p, hp⟩
    rcases ih (s + 1) (fun x hx => hwf x (List.mem_cons_of_mem _ hx)) with
      ⟨ois, nid, hmk, hnid, hoid, htot, hlen⟩
    refine ⟨{ id := s, order_id := oid, product_name := p.name, price := p.price,
              quantity := it.quantity } :: ois, nid, ?_, ?_, ?_, ?_, ?_⟩
    · simp only [mkOrderItems, hp, hmk]
    · rw [List.length_cons]; omega
    · intro oi hoi
      rcases List.mem_cons.mp hoi with rfl | hh
      · rfl
      · exact hoid oi hh
    · simp only [cartTotal, hp, htot, lineSum_cons]
    · simp [hlen]

/-- Product lookup through a row update that keeps ids. -/
lemma productFor_map_products {db db1 : DB} {g : Product → Product}
    (hid : ∀ p, (g p).id = p.id) (hprod : db1.products = db.products.map g)
    (it : CartItem) :
    productFor db1 it = (productFor db it).map g := by
  unfold productFor findProduct
  rw [hprod]
  exact find?_map_same g _ _ (fun a => by rw [hid])

/-- Snapshots only read product name and price, so a stock-only row
update does not change them. -/
lemma mkOrderItems_congr {db db1 : DB} {g : Product → Product}
    (hid : ∀ p, (g p).id = p.id) (hname : ∀ p, (g p).name = p.name)
    (hprice : ∀ p, (g p).price = p.price)
    (hprod : db1.products = db.products.map g)
    (oid : Nat) (items : List CartItem) :
    ∀ s : Nat, mkOrderItems db1 oid s items = mkOrderItems db oid s items := by
  induction items with
  | nil => intro s; rfl
  | cons it rest ih =>
    intro s
    have h1 : productFor db1 it = (productFor db it).map g :=
      productFor_map_products hid hprod it
    cases hq : productFor db it with
    | none => simp only [mkOrderItems, h1, hq, Option.map_none']
    | some p =>
      simp only [mkOrderItems, h1, hq, Option.map_some', hname, hprice, ih (s + 1)]

/-! ### Commit pass lemmas -/

lemma commitStep_orderItems (oid : Nat) (db : DB) (it : CartItem) (p : Product) :
    (commitStep oid db it p).orderItems =
      db.orderItems ++
        [{ id := db.nextOrderItemId
           order_id := oid
           product_name := p.name
           price := p.price
           quantity := it.quantity }] := rfl

/-- The net effect of the commit loop: exactly the snapshots that
mkOrderItems builds from the pre-state, a running total equal to their
line sum, the per-product stock decrements, and nothing else changed. -/
lemma commitLines_spec (oid : Nat) (items : List CartItem) :
    ∀ (db : DB) (total : Int),
    (∀ it ∈ items, (productFor db it).isSome) →
    ∃ db' total' ois nid,
      commitLines oid db total items = some (db', total') ∧
      mkOrderItems db oid db.nextOrderItemId items = some (ois, nid) ∧
      db'.orderItems = db.orderItems ++ ois ∧
      db'.nextOrderItemId = nid ∧
      total' = total + lineSum ois ∧
      db'.orders = db.orders ∧
      db'.cartItems = db.cartItems ∧
      db'.nextOrderId = db.nextOrderId ∧
      db'.nextCartItemId = db.nextCartItemId ∧
      db'.products = multiDecrement db.products items := by
  induction items with
  | nil =>
    intro db total _
    refine ⟨db, total, [], db.nextOrderItemId, rfl, rfl, (List.append_nil _).symm,
      rfl, ?_, rfl, rfl, rfl, rfl, rfl⟩
    simp [lineSum]
  | cons it rest ih =>
    intro db total hwf
    rcases Option.isSome_iff_exists.mp (hwf it (List.mem_cons_self it rest)) with ⟨p, hp⟩
    have hprod1 : (commitStep oid db it p).products =
        db.products.map (decFn it.product_id it.quantity) := rfl
    have hpf : ∀ x : CartItem, productFor (commitStep oid db it p) x =
        (productFor db x).map (decFn it.product_id it.quantity) :=
      fun x => productFor_map_products (decFn_id it.product_id it.quantity) hprod1 x
    have hwf1 : ∀ x ∈ rest, (productFor (commitStep oid db it p) x).isSome := by
      intro x hx
      rcases Option.isSome_iff_exists.mp (hwf x (List.mem_cons_of_mem _ hx)) with ⟨q, hq⟩
      rw [hpf x, hq, Option.map_some']
      rfl
    rcases ih (commitStep oid db it p) (total + p.price * it.quantity) hwf1 with
      ⟨db', total', ois, nid, hcl, hmk1, hoi, hnid, htot, hor, hci, hno, hnc, hpr⟩
    have hmkrest : mkOrderItems db oid (db.nextOrderItemId + 1) rest = some (ois, nid) := by
      rw [← mkOrderItems_congr (decFn_id it.product_id it.quantity) (decFn_name it.product_id it.quantity) (decFn_price it.product_id it.quantity) hprod1 oid rest
        (db.nextOrderItemId + 1)]
      exact hmk1
    refine ⟨db', total',
      { id := db.nextOrderItemId, order_id := oid, product_name := p.name,
        price := p.price, quantity := it.quantity } :: ois, nid,
      ?_, ?_, ?_, hnid, ?_, hor, hci, hno, hnc, hpr⟩
    · simp only [commitLines, hp]
      exact hcl
    · simp only [mkOrderItems, hp, hmkrest]
    · rw [hoi, commitStep_orderItems, List.append_assoc]
      rfl
    · rw [lineSum_cons]
      show total' = total + (p.price * it.quantity + lineSum ois)
      rw [htot]
      ring

/-! ### Stock decrement lemmas -/

/-- Products referenced by no processed line keep their row unchanged. -/
lemma multiDecrement_find_notmem (items : List CartItem) :
    ∀ (products : List Product) (pid : Nat),
    (∀ it ∈ items, it.product_id ≠ pid) →
    (multiDecrement products items).find? (fun p => p.id == pid) =
      products.find? (fun p => p.id == pid) := by
  induction items with
  | nil => intro products pid _; rfl
  | cons a rest ih =>
    intro products pid h
    simp only [multiDecrement]
    rw [ih _ pid (fun x hx => h x (List.mem_cons_of_mem _ hx)), find?_decrementStock]
    cases hq : products.find? (fun p => p.id == pid) with
    | none => rfl
    | some p =>
      have hpid : p.id = pid := by simpa using List.find?_some hq
      have hne : p.id ≠ a.product_id := by
        rw [hpid]
        exact fun hc => (h a (List.mem_cons_self a rest)) hc.symm
      rw [Option.map_some']
      simp [decFn, hne]

/-- Each processed line leaves its product with stock decremented by
exactly the quantity of that line, when the lines reference pairwise
distinct products. -/
lemma multiDecrement_find_each (items : List CartItem) :
    ∀ (products : List Product),
    items.Pairwise (fun a b => a.product_id ≠ b.product_id) →
    ∀ it ∈ items, ∀ p, products.find? (fun q => q.id == it.product_id) = some p →
      (multiDecrement products items).find? (fun q => q.id == it.product_id) =
        some { p with stock := p.stock - it.quantity } := by
  induction items with
  | nil => intro products _ it hit; cases hit
  | cons a rest ih =>
    intro products hdist it hit p hp
    rcases List.pairwise_cons.mp hdist with ⟨ha, hrest⟩
    rcases List.mem_cons.mp hit with rfl | hit'
    · simp only [multiDecrement]
      rw [multiDecrement_find_notmem rest _ _ (fun x hx => (ha x hx).symm),
        find?_decrementStock, hp, Option.map_some']
      have hpid : p.id = it.product_id := by simpa using List.find?_some hp
      simp [decFn, hpid]
    · simp only [multiDecrement]
      refine ih _ hrest it hit' p ?_
      rw [find?_decrementStock, hp, Option.map_some']
      have hqid : p.id = it.product_id := by simpa using List.find?_some hp
      have hne : p.id ≠ a.product_id := by
        rw [hqid]
        exact (ha it hit').symm
      simp [decFn, hne]

/-- After the commit loop every stock is still non-negative, given unique
product ids, pairwise distinct products across the lines, non-negative
starting stocks, and the validation bound on every line. -/
lemma multiDecrement_nonneg (items : List CartItem) :
    ∀ (products : List Product),
    products.Pairwise (fun a b => a.id ≠ b.id) →
    (∀ p ∈ products, 0 ≤ p.stock) →
    (∀ it ∈ items, ∃ p, products.find? (fun q => q.id == it.product_id) = some p ∧
      it.quantity ≤ p.stock) →
    items.Pairwise (fun a b => a.product_id ≠ b.product_id) →
    ∀ p ∈ multiDecrement products items, 0 ≤ p.stock := by
  induction items with
  | nil => intro products _ hstock _ _ p hp; exact hstock p hp
  | cons a rest ih =>
    intro products hids hstock hok hdist
    rcases List.pairwise_cons.mp hdist with ⟨ha, hrest⟩
    rcases hok a (List.mem_cons_self a rest) with ⟨pa, hfa, hqa⟩
    have hpaid : pa.id = a.product_id := by simpa using List.find?_some hfa
    have hids1 : (decrementStock products a.product_id a.quantity).Pairwise
        (fun x y => x.id ≠ y.id) := by
      unfold decrementStock
      rw [List.pairwise_map]
      refine hids.imp ?_
      intro x y hxy
      rw [decFn_id, decFn_id]
      exact hxy
    have hstock1 : ∀ p ∈ decrementStock products a.product_id a.quantity, 0 ≤ p.stock := by
      intro p hp
      rcases List.mem_map.mp hp with ⟨q, hq, rfl⟩
      by_cases hcase : q.id = a.product_id
      · have hqpa : q = pa := by
          refine eq_of_pairwise_key Product.id hids hq (List.mem_of_find?_eq_some hfa) ?_
          rw [hcase, hpaid]
        subst hqpa
        have : 0 ≤ q.stock - a.quantity := by omega
        simpa [decFn, hcase] using this
      · simpa [decFn, hcase] using hstock q hq
    have hok1 : ∀ it ∈ rest, ∃ p,
        (decrementStock products a.product_id a.quantity).find?
          (fun q => q.id == it.product_id) = some p ∧ it.quantity ≤ p.stock := by
      intro it hit
      rcases hok it (List.mem_cons_of_mem _ hit) with ⟨q, hq, hbound⟩
      refine ⟨q, ?_, hbound⟩
      rw [find?_decrementStock, hq, Option.map_some']
      have hqid : q.id = it.product_id := by simpa using List.find?_some hq
      have hne : q.id ≠ a.product_id := by
        rw [hqid]
        exact (ha it hit).symm
      simp [decFn, hne]
    exact ih _ hids1 hstock1 hok1 hrest

/-- The commit loop only changes the products table via the decrements. -/
lemma commitLines_products (oid : Nat) (items : List CartItem) :
    ∀ (db : DB) (total : Int) (db' : DB) (total' : Int),
    commitLines oid db total items = some (db', total') →
    db'.products = multiDecrement db.products items := by
  induction items with
  | nil =>
    intro db total db' total' h
    simp only [commitLines] at h
    have h2 := Option.some.inj h
    rw [Prod.mk.injEq] at h2
    rw [← h2.1]
    rfl
  | cons it rest ih =>
    intro db total db' total' h
    cases hp : productFor db it with
    | none =>
      simp only [commitLines, hp] at h
      exact Option.noConfusion h
    | some p =>
      simp only [commitLines, hp] at h
      exact ih _ _ _ _ h

/-! ### Checkout route branch lemmas -/

/-- Empty cart: flash and redirect, original state returned. -/
lemma checkout_empty (db : DB) (uid : Nat) (now : DateTimeSec)
    (h : cartFor db uid = []) :
    checkout db uid now = some (.emptyCart, db) := by
  simp [checkout, h]

/-- Failed validation: flash the offending name, original state returned. -/
lemma checkout_insufficient (db : DB) (uid : Nat) (now : DateTimeSec) (name : String)
    (hne : cartFor db uid ≠ [])
    (hval : validateStock db (cartFor db uid) = some (some name)) :
    checkout db uid now = some (.insufficientStock name, db) := by
  have hempty : (cartFor db uid).isEmpty = false := List.isEmpty_eq_false.mpr hne
  simp [checkout, hempty, hval]

/-- Passed validation: the committed state in terms of the commit loop. -/
lemma checkout_success_eq (db : DB) (uid : Nat) (now : DateTimeSec) {db1 : DB} {total : Int}
    (hne : cartFor db uid ≠ [])
    (hval : validateStock db (cartFor db uid) = some none)
    (hcl : commitLines db.nextOrderId { db with nextOrderId := db.nextOrderId + 1 } 0
      (cartFor db uid) = some (db1, total)) :
    checkout db uid now = some (.placed
      { id := db.nextOrderId
        order_code := "ORD" ++ strftimeYmdHMS now
        user_id := uid
        payment_mode := "COD"
        payment_status := "Pending"
        total_amount := total },
      { db1 with
          orders := db1.orders ++
            [{ id := db.nextOrderId
               order_code := "ORD" ++ strftimeYmdHMS now
               user_id := uid
               payment_mode := "COD"
               payment_status := "Pending"
               total_amount := total }]
          cartItems := db1.cartItems.filter (fun it => !(it.user_id == uid)) }) := by
  have hempty : (cartFor db uid).isEmpty = false := List.isEmpty_eq_false.mpr hne
  simp [checkout, hempty, hval, hcl]

/-- Any committed checkout either returned the original state or ran the
commit loop after a successful validation. -/
lemma checkout_cases {db : DB} {uid : Nat} {now : DateTimeSec} {r : CheckoutResult} {db' : DB}
    (h : checkout db uid now = some (r, db')) :
    db' = db ∨
    (validateStock db (cartFor db uid) = some none ∧
     ∃ db1 total,
       commitLines db.nextOrderId { db with nextOrderId := db.nextOrderId + 1 } 0
         (cartFor db uid) = some (db1, total) ∧
       db' = { db1 with
           orders := db1.orders ++
             [{ id := db.nextOrderId
                order_code := "ORD" ++ strftimeYmdHMS now
                user_id := uid
                payment_mode := "COD"
                payment_status := "Pending"
                total_amount := total }]
           cartItems := db1.cartItems.filter (fun it => !(it.user_id == uid)) }) := by
  by_cases hemp : (cartFor db uid).isEmpty = true
  · left
    simp [checkout, hemp] at h
    exact h.2.symm
  · have hemp' : (cartFor db uid).isEmpty = false := by
      cases hb : (cartFor db uid).isEmpty
      · rfl
      · exact absurd hb hemp
    cases hval : validateStock db (cartFor db uid) with
    | none => simp [checkout, hemp', hval] at h
    | some o =>
      cases o with
      | some name =>
        left
        simp [checkout, hemp', hval] at h
        exact h.2.symm
      | none =>
        cases hcl : commitLines db.nextOrderId
            { db with nextOrderId := db.nextOrderId + 1 } 0 (cartFor db uid) with
        | none => simp [checkout, hemp', hval, hcl] at h
        | some pr =>
          obtain ⟨db1, total⟩ := pr
          right
          refine ⟨rfl, db1, total, rfl, ?_⟩
          simp [checkout, hemp', hval, hcl] at h
          exact h.2.symm

/-! ### Frame lemmas for the remaining routes -/

lemma add_to_cart_frame (db : DB) (uid pid : Nat) (q : Int) :
    (add_to_cart db uid pid q).2.products = db.products ∧
    (add_to_cart db uid pid q).2.orders = db.orders ∧
    (add_to_cart db uid pid q).2.orderItems = db.orderItems := by
  simp only [add_to_cart]
  repeat' split
  all_goals exact ⟨rfl, rfl, rfl⟩

lemma remove_cart_item_frame (db : DB) (uid iid : Nat) :
    (remove_cart_item db uid iid).2.products = db.products ∧
    (remove_cart_item db uid iid).2.orders = db.orders ∧
    (remove_cart_item db uid iid).2.orderItems = db.orderItems := by
  simp only [remove_cart_item]
  repeat' split
  all_goals exact ⟨rfl, rfl, rfl⟩

lemma update_cart_frame (db : DB) (uid iid : Nat) (q : Int) :
    ∀ r db', update_cart db uid iid q = some (r, db') →
      db'.products = db.products ∧ db'.orders = db.orders ∧
      db'.orderItems = db.orderItems := by
  intro r db' h
  simp only [update_cart] at h
  repeat' split at h
  all_goals try exact Option.noConfusion h
  all_goals injection h with h3
  all_goals injection h3 with h4 h5
  all_goals subst h5
  all_goals exact ⟨rfl, rfl, rfl⟩

lemma admin_update_stock_frame (db : DB) (a : Bool) (pid : Nat) (ns : Int) :
    (admin_update_stock db a pid ns).2.orders = db.orders ∧
    (admin_update_stock db a pid ns).2.orderItems = db.orderItems ∧
    (admin_update_stock db a pid ns).2.cartItems = db.cartItems := by
  simp only [admin_update_stock]
  repeat' split
  all_goals exact ⟨rfl, rfl, rfl⟩

lemma admin_edit_product_frame (db : DB) (a : Bool) (pid : Nat)
    (n : String) (m pr st : Int) (de : String) (im : Option String) :
    (admin_edit_product db a pid n m pr st de im).2.orders = db.orders ∧
    (admin_edit_product db a pid n m pr st de im).2.orderItems = db.orderItems ∧
    (admin_edit_product db a pid n m pr st de im).2.cartItems = db.cartItems := by
  simp only [admin_edit_product]
  repeat' split
  all_goals exact ⟨rfl, rfl, rfl⟩

lemma admin_delete_product_frame (db : DB) (a : Bool) (pid : Nat) :
    (admin_delete_product db a pid).2.orders = db.orders ∧
    (admin_delete_product db a pid).2.orderItems = db.orderItems ∧
    (admin_delete_product db a pid).2.cartItems = db.cartItems := by
  simp only [admin_delete_product]
  repeat' split
  all_goals exact ⟨rfl, rfl, rfl⟩

lemma admin_update_order_status_frame (db : DB) (a : Bool) (oid : Nat) (ns : Option String) :
    (admin_update_order_status db a oid ns).2.products = db.products ∧
    (admin_update_order_status db a oid ns).2.orderItems = db.orderItems ∧
    (admin_update_order_status db a oid ns).2.cartItems = db.cartItems := by
  simp only [admin_update_order_status]
  repeat' split
  all_goals exact ⟨rfl, rfl, rfl⟩

lemma verify_payment_frame (db : DB) (au a : Bool) (oid : Nat) :
    (verify_payment db au a oid).2.products = db.products ∧
    (verify_payment db au a oid).2.orderItems = db.orderItems ∧
    (verify_payment db au a oid).2.cartItems = db.cartItems := by
  simp only [verify_payment]
  repeat' split
  all_goals exact ⟨rfl, rfl, rfl⟩

/-! ### create_order lemmas -/

/-- The full effect of create_order when every referenced product row
exists: an order charging the live cart total, one snapshot per line,
cart cleared, products untouched. -/
lemma create_order_spec (db : DB) (uid : Nat) (pm ps : String) (t : Nat)
    (hwf : ∀ it ∈ cartFor db uid, (productFor db it).isSome) :
    ∃ ois nid,
      cartTotal db (cartFor db uid) = some (lineSum ois) ∧
      mkOrderItems db db.nextOrderId db.nextOrderItemId (cartFor db uid) = some (ois, nid) ∧
      (∀ oi ∈ ois, oi.order_id = db.nextOrderId) ∧
      ois.length = (cartFor db uid).length ∧
      create_order db uid pm ps t = some (
        { id := db.nextOrderId
          order_code := "ORD" ++ toString t
          user_id := uid
          payment_mode := pm
          payment_status := ps
          total_amount := lineSum ois },
        { db with
            orders := db.orders ++
              [{ id := db.nextOrderId
                 order_code := "ORD" ++ toString t
                 user_id := uid
                 payment_mode := pm
                 payment_status := ps
                 total_amount := lineSum ois }]
            orderItems := db.orderItems ++ ois
            cartItems := db.cartItems.filter (fun it => !(it.user_id == uid))
            nextOrderId := db.nextOrderId + 1
            nextOrderItemId := nid }) := by
  rcases mkOrderItems_spec db.nextOrderId (cartFor db uid) db.nextOrderItemId hwf with
    ⟨ois, nid, hmk, hnid, hoid, htot, hlen⟩
  refine ⟨ois, nid, htot, hmk, hoid, hlen, ?_⟩
  simp [create_order, htot, hmk]

/-- mkOrderItems reads the state only through the products table. -/
lemma mkOrderItems_products_congr (db1 db : DB) (h : db1.products = db.products)
    (oid : Nat) (items : List CartItem) :
    ∀ s, mkOrderItems db1 oid s items = mkOrderItems db oid s items := by
  induction items with
  | nil => intro s; rfl
  | cons it rest ih =>
    intro s
    have h1 : productFor db1 it = productFor db it := by
      unfold productFor findProduct
      rw [h]
    cases hq : productFor db it with
    | none => simp only [mkOrderItems, h1, hq]
    | some p => simp only [mkOrderItems, h1, hq, ih (s + 1)]

/-! ### Claim C1 -/

/-- C1: for a user with a non-empty cart, when some cart line quantity
exceeds the current stock of its product, checkout fails with the
insufficient-stock flash naming an offending product and returns the
original state unchanged: no stock is decremented for any line, no Order
or OrderItem row is created, and every cart line is left as it was. -/
theorem C1_checkout_insufficient_no_mutation (db : DB) (uid : Nat) (now : DateTimeSec)
    (hne : cartFor db uid ≠ [])
    (hwf : ∀ it ∈ cartFor db uid, (productFor db it).isSome)
    (hbad : ∃ it ∈ cartFor db uid, ∃ p, productFor db it = some p ∧ it.quantity > p.stock) :
    ∃ name, checkout db uid now = some (.insufficientStock name, db) ∧
      ∃ it ∈ cartFor db uid, ∃ p, productFor db it = some p ∧
        p.name = name ∧ it.quantity > p.stock := by
  rcases validateStock_finds_bad hwf hbad with ⟨name, hv, hwit⟩
  exact ⟨name, checkout_insufficient db uid now name hne hv, hwit⟩

/-- Fixture for C1: one product with stock 5, a cart line asking for 10. -/
def prodC1 : Product :=
  { id := 1, name := "A", mrp := 120, price := 100, stock := 5, image := "i", description := "d" }

def dbC1 : DB :=
  { products := [prodC1],
    cartItems := [{ id := 1, user_id := 1, product_id := 1, quantity := 10 }],
    orders := [], orderItems := [],
    nextCartItemId := 2, nextOrderId := 1, nextOrderItemId := 1 }

def dtC1 : DateTimeSec :=
  { year := 2026, month := 1, day := 2, hour := 3, minute := 4, second := 5 }

/-- C1 witness: the spec scenario stock 5, requested 10. -/
theorem C1_witness :
    ∃ name, checkout dbC1 1 dtC1 = some (.insufficientStock name, dbC1) ∧
      ∃ it ∈ cartFor dbC1 1, ∃ p, productFor dbC1 it = some p ∧
        p.name = name ∧ it.quantity > p.stock :=
  C1_checkout_insufficient_no_mutation dbC1 1 dtC1 (by decide) (by decide) (by decide)

/-! ### Claim C2 -/

/-- C2: when every cart line satisfies quantity at most current stock,
checkout succeeds, decrements each referenced product by exactly that
line quantity, sets the order total to the accumulated sum of price times
quantity (equal to the live cart total), appends one snapshot OrderItem
per line, and deletes all cart lines of the user.  The pairwise
distinctness hypothesis is the unique (user, product) constraint on cart
lines stated by the data model and maintained by add-to-cart. -/
theorem C2_checkout_success_effects (db : DB) (uid : Nat) (now : DateTimeSec)
    (hne : cartFor db uid ≠ [])
    (hwf : ∀ it ∈ cartFor db uid, (productFor db it).isSome)
    (hok : ∀ it ∈ cartFor db uid, ∀ p, productFor db it = some p → it.quantity ≤ p.stock)
    (hdist : (cartFor db uid).Pairwise (fun a b => a.product_id ≠ b.product_id)) :
    ∃ order db' ois nid,
      checkout db uid now = some (.placed order, db') ∧
      mkOrderItems db db.nextOrderId db.nextOrderItemId (cartFor db uid) = some (ois, nid) ∧
      order.total_amount = lineSum ois ∧
      cartTotal db (cartFor db uid) = some order.total_amount ∧
      ois.length = (cartFor db uid).length ∧
      db'.orders = db.orders ++ [order] ∧
      db'.orderItems = db.orderItems ++ ois ∧
      db'.cartItems = db.cartItems.filter (fun it => !(it.user_id == uid)) ∧
      (∀ it ∈ cartFor db uid, ∀ p, productFor db it = some p →
        productFor db' it = some { p with stock := p.stock - it.quantity }) := by
  have hval : validateStock db (cartFor db uid) = some none :=
    validateStock_ok (fun it hit => by
      rcases Option.isSome_iff_exists.mp (hwf it hit) with ⟨p, hp⟩
      exact ⟨p, hp, hok it hit p hp⟩)
  rcases commitLines_spec db.nextOrderId (cartFor db uid)
      { db with nextOrderId := db.nextOrderId + 1 } 0 hwf with
    ⟨db1, total, ois, nid, hcl, hmk, hoiEq, hnid, htot, hord, hci, hno, hnc, hpr⟩
  rcases mkOrderItems_spec db.nextOrderId (cartFor db uid) db.nextOrderItemId hwf with
    ⟨ois2, nid2, hmk2, _, _, htot2, hlen2⟩
  have hmkdb : mkOrderItems db db.nextOrderId db.nextOrderItemId (cartFor db uid) =
      some (ois, nid) :=
    (mkOrderItems_products_congr { db with nextOrderId := db.nextOrderId + 1 } db rfl
      db.nextOrderId (cartFor db uid) db.nextOrderItemId).symm.trans hmk
  have hsame : ois2 = ois ∧ nid2 = nid := by
    have h12 := hmk2.symm.trans hmkdb
    have h3 := Option.some.inj h12
    rw [Prod.mk.injEq] at h3
    exact ⟨h3.1, h3.2⟩
  obtain ⟨rfl, rfl⟩ := hsame
  have hchk := checkout_success_eq db uid now hne hval hcl
  have htotal : total = lineSum ois2 := by rw [htot, zero_add]
  refine ⟨_, _, ois2, nid2, hchk, hmk2, htotal, ?_, hlen2, ?_, ?_, ?_, ?_⟩
  · rw [htot2, htotal]
  · show db1.orders ++ [_] = db.orders ++ [_]
    rw [hord]
  · exact hoiEq
  · show db1.cartItems.filter _ = db.cartItems.filter _
    rw [hci]
  · intro it hit p hp
    have hfind : productFor
        { db1 with
            orders := db1.orders ++
              [{ id := db.nextOrderId
                 order_code := "ORD" ++ strftimeYmdHMS now
                 user_id := uid
                 payment_mode := "COD"
                 payment_status := "Pending"
                 total_amount := total }]
            cartItems := db1.cartItems.filter (fun x => !(x.user_id == uid)) } it =
        (multiDecrement db.products (cartFor db uid)).find?
          (fun q => q.id == it.product_id) := by
      show db1.products.find? (fun q => q.id == it.product_id) = _
      rw [hpr]
    rw [hfind]
    exact multiDecrement_find_each (cartFor db uid) db.products hdist it hit p hp

/-- Fixture for C2: the spec scenario, stock 5 price 100 quantity 3. -/
def prodC2 : Product :=
  { id := 1, name := "A", mrp := 120, price := 100, stock := 5, image := "i", description := "d" }

def dbC2 : DB :=
  { products := [prodC2],
    cartItems := [{ id := 1, user_id := 1, product_id := 1, quantity := 3 }],
    orders := [], orderItems := [],
    nextCartItemId := 2, nextOrderId := 1, nextOrderItemId := 1 }

def dtC2 : DateTimeSec :=
  { year := 2026, month := 1, day := 2, hour := 3, minute := 4, second := 6 }

/-- C2 witness: the spec scenario checks out with total 300 and leaves
stock 2 and an empty cart. -/
theorem C2_witness :
    (∃ order db' ois nid,
      checkout dbC2 1 dtC2 = some (.placed order, db') ∧
      mkOrderItems dbC2 dbC2.nextOrderId dbC2.nextOrderItemId (cartFor dbC2 1) =
        some (ois, nid) ∧
      order.total_amount = lineSum ois ∧
      cartTotal dbC2 (cartFor dbC2 1) = some order.total_amount ∧
      ois.length = (cartFor dbC2 1).length ∧
      db'.orders = dbC2.orders ++ [order] ∧
      db'.orderItems = dbC2.orderItems ++ ois ∧
      db'.cartItems = dbC2.cartItems.filter (fun it => !(it.user_id == 1)) ∧
      (∀ it ∈ cartFor dbC2 1, ∀ p, productFor dbC2 it = some p →
        productFor db' it = some { p with stock := p.stock - it.quantity })) ∧
    (Option.map
      (fun r => match r with
        | (.placed o, db') =>
          (o.total_amount, db'.cartItems.length, db'.products.map Product.stock)
        | (_, _) => (0, 0, []))
      (checkout dbC2 1 dtC2) = some (300, 0, [2])) :=
  ⟨C2_checkout_success_effects dbC2 1 dtC2 (by decide) (by decide) (by decide) (by decide),
   by decide⟩

/-! ### Claim C3 -/

/-- The orders placed through create_order never touch product rows. -/
lemma create_order_products {db : DB} {uid : Nat} {pm ps : String} {t : Nat}
    {o : Order} {db' : DB} (h : create_order db uid pm ps t = some (o, db')) :
    db'.products = db.products := by
  cases hct : cartTotal db (cartFor db uid) with
  | none => simp [create_order, hct] at h
  | some total =>
    cases hmk : mkOrderItems db db.nextOrderId db.nextOrderItemId (cartFor db uid) with
    | none => simp [create_order, hct, hmk] at h
    | some pr =>
      obtain ⟨ois, nid⟩ := pr
      simp only [create_order, hct, hmk, Option.some.injEq, Prod.mk.injEq] at h
      rw [← h.2]

/-- C3: the place-order COD and UPI paths (create_order) create the order
and delete the cart lines of the user while leaving every product row,
hence every stock value, unchanged; no stock validation is performed, so
the hypotheses say nothing about quantities versus stock and the call
still succeeds. -/
theorem C3_create_order_frame (db : DB) (uid : Nat) (pm ps : String) (t : Nat)
    (hwf : ∀ it ∈ cartFor db uid, (productFor db it).isSome) :
    ∃ order db', create_order db uid pm ps t = some (order, db') ∧
      db'.products = db.products ∧
      db'.orders = db.orders ++ [order] ∧
      db'.orderItems.length = db.orderItems.length + (cartFor db uid).length ∧
      db'.cartItems = db.cartItems.filter (fun it => !(it.user_id == uid)) := by
  rcases create_order_spec db uid pm ps t hwf with ⟨ois, nid, htot, hmk, hoid, hlen, heq⟩
  refine ⟨_, _, heq, rfl, rfl, ?_, rfl⟩
  simp [hlen]

/-- Fixture for C3: stock 5 but quantity 10 in the cart, oversold. -/
def prodC3 : Product :=
  { id := 1, name := "A", mrp := 120, price := 100, stock := 5, image := "i", description := "d" }

def dbC3 : DB :=
  { products := [prodC3],
    cartItems := [{ id := 1, user_id := 1, product_id := 1, quantity := 10 }],
    orders := [], orderItems := [],
    nextCartItemId := 2, nextOrderId := 1, nextOrderItemId := 1 }

/-- C3 witness: create_order succeeds on an oversold cart and stock is
untouched. -/
theorem C3_witness :
    (∃ order db', create_order dbC3 1 "COD" "Pending" 5 = some (order, db') ∧
      db'.products = dbC3.products ∧
      db'.orders = dbC3.orders ++ [order] ∧
      db'.orderItems.length = dbC3.orderItems.length + (cartFor dbC3 1).length ∧
      db'.cartItems = dbC3.cartItems.filter (fun it => !(it.user_id == 1))) ∧
    (∃ it ∈ cartFor dbC3 1, ∃ p, productFor dbC3 it = some p ∧ it.quantity > p.stock) :=
  ⟨C3_create_order_frame dbC3 1 "COD" "Pending" 5 (by decide), by decide⟩

/-! ### Claim C10 -/

/-- C10: admin product edits (name, price, stock, description, image) and
product deletion leave the OrderItem and Order tables unchanged, so every
snapshotted product_name and price and every total_amount of committed
orders is unchanged. -/
theorem C10_snapshot_immutability (db : DB) (a : Bool) (pid : Nat)
    (n : String) (m pr st : Int) (de : String) (im : Option String) :
    ((admin_edit_product db a pid n m pr st de im).2.orderItems = db.orderItems ∧
     (admin_edit_product db a pid n m pr st de im).2.orders = db.orders) ∧
    ((admin_delete_product db a pid).2.orderItems = db.orderItems ∧
     (admin_delete_product db a pid).2.orders = db.orders) :=
  ⟨⟨(admin_edit_product_frame db a pid n m pr st de im).2.1,
    (admin_edit_product_frame db a pid n m pr st de im).1⟩,
   ⟨(admin_delete_product_frame db a pid).2.1,
    (admin_delete_product_frame db a pid).1⟩⟩

/-! ### Claim C6 -/

/-- Fixture for C6: a store with one product and no cart lines at all. -/
def prodC6 : Product :=
  { id := 1, name := "A", mrp := 120, price := 100, stock := 5, image := "i", description := "d" }

def dbC6 : DB :=
  { products := [prodC6], cartItems := [], orders := [], orderItems := [],
    nextCartItemId := 1, nextOrderId := 1, nextOrderItemId := 1 }

/-- C6 counterexample: the claim says placing an order with an empty cart
creates no Order row, but the place-order path create_order performs no
emptiness check and commits an Order with total_amount 0. -/
theorem C6_counterexample :
    cartFor dbC6 7 = [] ∧
    Option.map (fun r => (r.2.orders.length, r.1.total_amount))
      (create_order dbC6 7 "COD" "Pending" 5) = some (1, 0) := by decide

/-- C6 amended: the checkout route does fail with the empty-cart flash
and no side effects on an empty cart; the place-order COD and UPI paths
(create_order) instead commit an Order row with total_amount 0, no order
lines, and no other change. -/
theorem C6_empty_cart_amended (db : DB) (uid : Nat) (h : cartFor db uid = []) :
    (∀ now, checkout db uid now = some (.emptyCart, db)) ∧
    (∀ pm ps t, ∃ o db', create_order db uid pm ps t = some (o, db') ∧
      o.total_amount = 0 ∧ db'.orders = db.orders ++ [o] ∧
      db'.orderItems = db.orderItems ∧ db'.cartItems = db.cartItems ∧
      db'.products = db.products) := by
  constructor
  · intro now
    exact checkout_empty db uid now h
  · intro pm ps t
    have hwf : ∀ it ∈ cartFor db uid, (productFor db it).isSome := by
      rw [h]
      intro it hit
      cases hit
    rcases create_order_spec db uid pm ps t hwf with ⟨ois, nid, htot, hmk, hoid, hlen, heq⟩
    have hnil : ois = [] := by
      rw [h] at hlen
      exact List.length_eq_zero.mp hlen
    subst hnil
    refine ⟨_, _, heq, by simp [lineSum], rfl, ?_, ?_, rfl⟩
    · exact List.append_nil _
    · show db.cartItems.filter (fun it => !(it.user_id == uid)) = db.cartItems
      rw [List.filter_eq_self]
      intro it hit
      have hnotin : ∀ x ∈ db.cartItems, ¬((fun i => i.user_id == uid) x = true) := by
        rw [← List.filter_eq_nil_iff]
        exact h
      have := hnotin it hit
      simp only [Bool.not_eq_true] at this
      simp [this]

/-- Fixture for the C6 witness: same empty-cart store seen by user 7. -/
theorem C6_witness :
    (∀ now, checkout dbC6 7 now = some (.emptyCart, dbC6)) ∧
    (∀ pm ps t, ∃ o db', create_order dbC6 7 pm ps t = some (o, db') ∧
      o.total_amount = 0 ∧ db'.orders = dbC6.orders ++ [o] ∧
      db'.orderItems = dbC6.orderItems ∧ db'.cartItems = dbC6.cartItems ∧
      db'.products = dbC6.products) :=
  C6_empty_cart_amended dbC6 7 (by decide)

/-! ### Claim C7 -/

/-- Any order the checkout route commits carries a code derived purely
from the second-granularity wall clock. -/
lemma checkout_placed_code {db : DB} {uid : Nat} {now : DateTimeSec} {o : Order} {db' : DB}
    (h : checkout db uid now = some (.placed o, db')) :
    o.order_code = "ORD" ++ strftimeYmdHMS now := by
  by_cases hemp : (cartFor db uid).isEmpty = true
  · simp [checkout, hemp] at h
  · have hemp' : (cartFor db uid).isEmpty = false := by
      cases hb : (cartFor db uid).isEmpty
      · rfl
      · exact absurd hb hemp
    cases hval : validateStock db (cartFor db uid) with
    | none => simp [checkout, hemp', hval] at h
    | some o2 =>
      cases o2 with
      | some name => simp [checkout, hemp', hval] at h
      | none =>
        cases hcl : commitLines db.nextOrderId
            { db with nextOrderId := db.nextOrderId + 1 } 0 (cartFor db uid) with
        | none => simp [checkout, hemp', hval, hcl] at h
        | some pr =>
          obtain ⟨db1, total⟩ := pr
          simp only [checkout, hemp', hval, hcl, Option.some.injEq, Prod.mk.injEq,
            Bool.false_eq_true, if_false, CheckoutResult.placed.injEq] at h
          rw [← h.1]

/-- C7: the checkout order code is a function of the wall-clock second
alone — no retry, no per-request disambiguation — so any two order
placements committed in the same second receive identical order codes,
against the unique column constraint. -/
theorem C7_same_second_same_code (dbA dbB : DB) (uidA uidB : Nat) (now : DateTimeSec)
    (oA oB : Order) (sA sB : DB)
    (h1 : checkout dbA uidA now = some (.placed oA, sA))
    (h2 : checkout dbB uidB now = some (.placed oB, sB)) :
    oA.order_code = oB.order_code := by
  rw [checkout_placed_code h1, checkout_placed_code h2]

/-- Fixtures for the C7 witness: two different users in two different
stores checking out in the same wall-clock second. -/
def prodC7a : Product :=
  { id := 1, name := "A", mrp := 3, price := 2, stock := 3, image := "i", description := "d" }

def dbC7a : DB :=
  { products := [prodC7a],
    cartItems := [{ id := 1, user_id := 1, product_id := 1, quantity := 1 }],
    orders := [], orderItems := [],
    nextCartItemId := 2, nextOrderId := 1, nextOrderItemId := 1 }

def prodC7b : Product :=
  { id := 4, name := "B", mrp := 9, price := 7, stock := 5, image := "j", description := "e" }

def dbC7b : DB :=
  { products := [prodC7b],
    cartItems := [{ id := 6, user_id := 2, product_id := 4, quantity := 2 }],
    orders := [], orderItems := [],
    nextCartItemId := 7, nextOrderId := 3, nextOrderItemId := 8 }

def dtC7 : DateTimeSec :=
  { year := 2026, month := 1, day := 2, hour := 3, minute := 4, second := 7 }

def ordC7a : Order :=
  { id := 1, order_code := "ORD20260102030407", user_id := 1, payment_mode := "COD",
    payment_status := "Pending", total_amount := 2 }

def stC7a : DB :=
  { products := [{ prodC7a with stock := 2 }],
    cartItems := [],
    orders := [ordC7a],
    orderItems := [{ id := 1, order_id := 1, product_name := "A", price := 2, quantity := 1 }],
    nextCartItemId := 2, nextOrderId := 2, nextOrderItemId := 2 }

def ordC7b : Order :=
  { id := 3, order_code := "ORD20260102030407", user_id := 2, payment_mode := "COD",
    payment_status := "Pending", total_amount := 14 }

def stC7b : DB :=
  { products := [{ prodC7b with stock := 3 }],
    cartItems := [],
    orders := [ordC7b],
    orderItems := [{ id := 8, order_id := 3, product_name := "B", price := 7, quantity := 2 }],
    nextCartItemId := 7, nextOrderId := 4, nextOrderItemId := 9 }

/-- C7 witness: two concrete checkouts in the same second collide. -/
theorem C7_witness : ordC7a.order_code = ordC7b.order_code :=
  C7_same_second_same_code dbC7a dbC7b 1 2 dtC7 ordC7a ordC7b stC7a stC7b
    (by decide) (by decide)

/-! ### Claim C4 -/

def prodC4 : Product :=
  { id := 1, name := "A", mrp := 120, price := 100, stock := 5, image := "i", description := "d" }

def dbC4 : DB :=
  { products := [prodC4], cartItems := [], orders := [], orderItems := [],
    nextCartItemId := 1, nextOrderId := 1, nextOrderItemId := 1 }

/-- C4 counterexample: from a state where every stock is non-negative,
the admin stock update route writes the submitted value unchecked and
commits a negative stock, so the claimed invariant is not preserved by
every exposed operation. -/
theorem C4_counterexample :
    (∀ p ∈ dbC4.products, 0 ≤ p.stock) ∧
    ((admin_update_stock dbC4 true 1 (-1)).1 = CartResult.ok ∧
     ∃ p ∈ (admin_update_stock dbC4 true 1 (-1)).2.products, p.stock < 0) := by decide

/-- C4 amended: in a state with unique product ids and all stocks
non-negative, the cart operations, checkout (under the per-cart unique
product constraint the cart operations maintain) and the create_order
place-order paths all preserve stock non-negativity; the admin stock
edit does not — it writes the submitted integer unchecked. -/
theorem C4_stock_nonneg_amended (db : DB)
    (hids : db.products.Pairwise (fun a b => a.id ≠ b.id))
    (hstock : ∀ p ∈ db.products, 0 ≤ p.stock) :
    (∀ uid pid q, ∀ p ∈ (add_to_cart db uid pid q).2.products, 0 ≤ p.stock) ∧
    (∀ uid iid q r db', update_cart db uid iid q = some (r, db') →
      ∀ p ∈ db'.products, 0 ≤ p.stock) ∧
    (∀ uid iid, ∀ p ∈ (remove_cart_item db uid iid).2.products, 0 ≤ p.stock) ∧
    (∀ uid pm ps t o db', create_order db uid pm ps t = some (o, db') →
      ∀ p ∈ db'.products, 0 ≤ p.stock) ∧
    (∀ uid now r db', (cartFor db uid).Pairwise (fun a b => a.product_id ≠ b.product_id) →
      checkout db uid now = some (r, db') → ∀ p ∈ db'.products, 0 ≤ p.stock) := by
  refine ⟨?_, ?_, ?_, ?_, ?_⟩
  · intro uid pid q p hp
    rw [(add_to_cart_frame db uid pid q).1] at hp
    exact hstock p hp
  · intro uid iid q r db' h p hp
    rw [(update_cart_frame db uid iid q r db' h).1] at hp
    exact hstock p hp
  · intro uid iid p hp
    rw [(remove_cart_item_frame db uid iid).1] at hp
    exact hstock p hp
  · intro uid pm ps t o db' h p hp
    rw [create_order_products h] at hp
    exact hstock p hp
  · intro uid now r db' hdist h p hp
    rcases checkout_cases h with rfl | ⟨hval, db1, total, hcl, hdb'⟩
    · exact hstock p hp
    · have hprod : db'.products = multiDecrement db.products (cartFor db uid) := by
        rw [hdb']
        show db1.products = _
        exact commitLines_products db.nextOrderId (cartFor db uid)
          { db with nextOrderId := db.nextOrderId + 1 } 0 db1 total hcl
      rw [hprod] at hp
      have hok : ∀ it ∈ cartFor db uid, ∃ q2,
          db.products.find? (fun x => x.id == it.product_id) = some q2 ∧
          it.quantity ≤ q2.stock := validateStock_none_sound hval
      exact multiDecrement_nonneg (cartFor db uid) db.products hids hstock hok hdist p hp

/-- C4 witness: the amended preservation applied at a concrete state and
a concrete product row. -/
theorem C4_witness : 0 ≤ prodC4.stock :=
  (C4_stock_nonneg_amended dbC4 (by decide) (by decide)).1 1 1 2 prodC4 (by decide)

/-! ### Claim C5 -/

/-- The sum invariant only depends on the orders and order items tables. -/
lemma ordersConsistent_of_eq {db db' : DB} (ho : db'.orders = db.orders)
    (hoi : db'.orderItems = db.orderItems) (h : ordersConsistent db) :
    ordersConsistent db' := by
  intro o hmem
  rw [ho] at hmem
  have h2 := h o hmem
  unfold itemsOf at h2 ⊢
  rw [hoi]
  exact h2

/-- A rewrite of the orders table that keeps ids and totals (the payment
status updates) preserves the sum invariant. -/
lemma ordersConsistent_map_status {db db' : DB} (f : Order → Order)
    (hid : ∀ o, (f o).id = o.id) (htot : ∀ o, (f o).total_amount = o.total_amount)
    (ho : db'.orders = db.orders.map f) (hoi : db'.orderItems = db.orderItems)
    (h : ordersConsistent db) : ordersConsistent db' := by
  intro o' hmem
  rw [ho] at hmem
  rcases List.mem_map.mp hmem with ⟨o, hmemo, rfl⟩
  rw [htot o, hid o]
  unfold itemsOf
  rw [hoi]
  exact h o hmemo

/-- Appending one fresh order together with exactly its own lines keeps
the sum invariant, by the autoincrement freshness of the new order id. -/
lemma ordersConsistent_append {db db' : DB} (order : Order) (ois : List OrderItem)
    (hfresh : idsFresh db) (h : ordersConsistent db)
    (ho : db'.orders = db.orders ++ [order])
    (hoi : db'.orderItems = db.orderItems ++ ois)
    (hoid : ∀ oi ∈ ois, oi.order_id = order.id)
    (hid : order.id = db.nextOrderId)
    (htot : order.total_amount = lineSum ois) :
    ordersConsistent db' := by
  intro o hmem
  rw [ho] at hmem
  rcases List.mem_append.mp hmem with hold | hnew
  · have hlt : o.id < db.nextOrderId := hfresh.2.1 o hold
    have hfilter : itemsOf db' o.id = itemsOf db o.id := by
      unfold itemsOf
      rw [hoi, List.filter_append]
      have hz : ois.filter (fun oi => oi.order_id == o.id) = [] := by
        rw [List.filter_eq_nil_iff]
        intro oi hoi2
        have he := hoid oi hoi2
        simp only [beq_iff_eq]
        omega
      rw [hz, List.append_nil]
    rw [hfilter]
    exact h o hold
  · have hoeq : o = order := List.mem_singleton.mp hnew
    subst hoeq
    have hfilter : itemsOf db' o.id = ois := by
      unfold itemsOf
      rw [hoi, List.filter_append]
      have h1 : db.orderItems.filter (fun oi => oi.order_id == o.id) = [] := by
        rw [List.filter_eq_nil_iff]
        intro oi hoi2
        have hlt := (hfresh.2.2 oi hoi2).1
        simp only [beq_iff_eq]
        omega
      have h2 : ois.filter (fun oi => oi.order_id == o.id) = ois := by
        rw [List.filter_eq_self]
        intro oi hoi2
        simp [hoid oi hoi2]
      rw [h1, h2, List.nil_append]
    rw [hfilter]
    exact htot

/-- The status update route rewrites orders at most by a status map. -/
lemma admin_update_order_status_orders (db : DB) (a : Bool) (oid : Nat) (ns : Option String) :
    (admin_update_order_status db a oid ns).2.orders = db.orders ∨
    ∃ s, (admin_update_order_status db a oid ns).2.orders =
      db.orders.map (fun o => if o.id == oid then { o with payment_status := s } else o) := by
  simp only [admin_update_order_status]
  repeat' split
  all_goals first
    | exact Or.inl rfl
    | exact Or.inr ⟨_, rfl⟩

/-- The verify-payment route rewrites orders at most by a status map. -/
lemma verify_payment_orders (db : DB) (au a : Bool) (oid : Nat) :
    (verify_payment db au a oid).2.orders = db.orders ∨
    (verify_payment db au a oid).2.orders =
      db.orders.map (fun o => if o.id == oid then { o with payment_status := "Paid" } else o) := by
  simp only [verify_payment]
  repeat' split
  all_goals first
    | exact Or.inl rfl
    | exact Or.inr rfl

/-- A committed live cart total certifies that every product row of the
cart exists. -/
lemma cartTotal_some_sound {db : DB} {items : List CartItem} {t : Int}
    (h : cartTotal db items = some t) : ∀ it ∈ items, (productFor db it).isSome := by
  induction items generalizing t with
  | nil => intro it hit; cases hit
  | cons a rest ih =>
    intro it hit
    cases hp : productFor db a with
    | none => simp [cartTotal, hp] at h
    | some p =>
      rcases List.mem_cons.mp hit with rfl | hit'
      · rw [hp]; rfl
      · cases hct : cartTotal db rest with
        | none => simp [cartTotal, hp, hct] at h
        | some t2 => exact ih hct it hit'

/-- C5: in any reachable state (unique ids below the autoincrement
counters) where every committed order carries the sum of price times
quantity over its own lines, every operation of the system returns a
state where that is still true: cart operations and catalog operations
never touch orders or order lines, checkout and create_order append one
fresh order whose total is exactly the line sum of its snapshots, and the
status updates rewrite only payment_status. -/
theorem C5_sum_invariant_preserved (db : DB)
    (hfresh : idsFresh db) (hcons : ordersConsistent db) :
    (∀ uid pid q, ordersConsistent (add_to_cart db uid pid q).2) ∧
    (∀ uid iid q r db', update_cart db uid iid q = some (r, db') → ordersConsistent db') ∧
    (∀ uid iid, ordersConsistent (remove_cart_item db uid iid).2) ∧
    (∀ uid now r db', checkout db uid now = some (r, db') → ordersConsistent db') ∧
    (∀ uid pm ps t o db', create_order db uid pm ps t = some (o, db') →
      ordersConsistent db') ∧
    (∀ a pid ns, ordersConsistent (admin_update_stock db a pid ns).2) ∧
    (∀ a pid n m pr st de im,
      ordersConsistent (admin_edit_product db a pid n m pr st de im).2) ∧
    (∀ a pid, ordersConsistent (admin_delete_product db a pid).2) ∧
    (∀ a oid ns, ordersConsistent (admin_update_order_status db a oid ns).2) ∧
    (∀ au a oid, ordersConsistent (verify_payment db au a oid).2) := by
  refine ⟨?_, ?_, ?_, ?_, ?_, ?_, ?_, ?_, ?_, ?_⟩
  · intro uid pid q
    exact ordersConsistent_of_eq (add_to_cart_frame db uid pid q).2.1
      (add_to_cart_frame db uid pid q).2.2 hcons
  · intro uid iid q r db' h
    exact ordersConsistent_of_eq (update_cart_frame db uid iid q r db' h).2.1
      (update_cart_frame db uid iid q r db' h).2.2 hcons
  · intro uid iid
    exact ordersConsistent_of_eq (remove_cart_item_frame db uid iid).2.1
      (remove_cart_item_frame db uid iid).2.2 hcons
  · intro uid now r db' h
    rcases checkout_cases h with rfl | ⟨hval, db1, total, hcl, hdb'⟩
    · exact hcons
    · have hwf : ∀ it ∈ cartFor db uid, (productFor db it).isSome := by
        intro it hit
        rcases validateStock_none_sound hval it hit with ⟨p, hp, _⟩
        rw [hp]
        rfl
      rcases commitLines_spec db.nextOrderId (cartFor db uid)
          { db with nextOrderId := db.nextOrderId + 1 } 0 hwf with
        ⟨db1', total', ois, nid, hcl', hmk, hoiEq, hnid, htot, hord, hci, hno, hnc, hpr⟩
      have hlink2 := Option.some.inj (hcl'.symm.trans hcl)
      rw [Prod.mk.injEq] at hlink2
      obtain ⟨rfl, rfl⟩ := hlink2
      rcases mkOrderItems_spec db.nextOrderId (cartFor db uid) db.nextOrderItemId hwf with
        ⟨ois2, nid2, hmk2, _, hoid2, _, _⟩
      have hmkdb : mkOrderItems db db.nextOrderId db.nextOrderItemId (cartFor db uid) =
          some (ois, nid) :=
        (mkOrderItems_products_congr { db with nextOrderId := db.nextOrderId + 1 } db rfl
          db.nextOrderId (cartFor db uid) db.nextOrderItemId).symm.trans hmk
      have hsame := Option.some.inj (hmk2.symm.trans hmkdb)
      rw [Prod.mk.injEq] at hsame
      obtain ⟨rfl, rfl⟩ := hsame
      refine ordersConsistent_append
        { id := db.nextOrderId
          order_code := "ORD" ++ strftimeYmdHMS now
          user_id := uid
          payment_mode := "COD"
          payment_status := "Pending"
          total_amount := total' } ois2 hfresh hcons ?_ ?_ ?_ rfl ?_
      · rw [hdb']
        show db1'.orders ++ _ = db.orders ++ _
        rw [hord]
      · rw [hdb']
        exact hoiEq
      · exact hoid2
      · show total' = lineSum ois2
        rw [htot, zero_add]
  · intro uid pm ps t o db' h
    cases hct : cartTotal db (cartFor db uid) with
    | none => simp [create_order, hct] at h
    | some tot =>
      have hwf := cartTotal_some_sound hct
      rcases create_order_spec db uid pm ps t hwf with ⟨ois, nid, htot, hmk, hoid, hlen, heq⟩
      have h2 := Option.some.inj (heq.symm.trans h)
      rw [Prod.mk.injEq] at h2
      obtain ⟨rfl, rfl⟩ := h2
      exact ordersConsistent_append _ ois hfresh hcons rfl rfl hoid rfl rfl
  · intro a pid ns
    exact ordersConsistent_of_eq (admin_update_stock_frame db a pid ns).1
      (admin_update_stock_frame db a pid ns).2.1 hcons
  · intro a pid n m pr st de im
    exact ordersConsistent_of_eq (admin_edit_product_frame db a pid n m pr st de im).1
      (admin_edit_product_frame db a pid n m pr st de im).2.1 hcons
  · intro a pid
    exact ordersConsistent_of_eq (admin_delete_product_frame db a pid).1
      (admin_delete_product_frame db a pid).2.1 hcons
  · intro a oid ns
    rcases admin_update_order_status_orders db a oid ns with hsame | ⟨s, hmap⟩
    · exact ordersConsistent_of_eq hsame
        (admin_update_order_status_frame db a oid ns).2.1 hcons
    · refine ordersConsistent_map_status _ ?_ ?_ hmap
        (admin_update_order_status_frame db a oid ns).2.1 hcons
      · intro o
        split <;> rfl
      · intro o
        split <;> rfl
  · intro au a oid
    rcases verify_payment_orders db au a oid with hsame | hmap
    · exact ordersConsistent_of_eq hsame (verify_payment_frame db au a oid).2.1 hcons
    · refine ordersConsistent_map_status _ ?_ ?_ hmap
        (verify_payment_frame db au a oid).2.1 hcons
      · intro o
        split <;> rfl
      · intro o
        split <;> rfl

/-- Fixture for C5: a store with one committed consistent order. -/
def dbC5 : DB :=
  { products :=
      [{ id := 1, name := "A", mrp := 9, price := 7, stock := 5, image := "i", description := "d" }],
    cartItems := [],
    orders :=
      [{ id := 1, order_code := "ORD1", user_id := 1, payment_mode := "COD",
         payment_status := "Pending", total_amount := 14 }],
    orderItems := [{ id := 1, order_id := 1, product_name := "A", price := 7, quantity := 2 }],
    nextCartItemId := 1, nextOrderId := 2, nextOrderItemId := 2 }

/-- C5 witness: preservation applied at a concrete consistent state. -/
theorem C5_witness : ordersConsistent (add_to_cart dbC5 1 1 2).2 :=
  (C5_sum_invariant_preserved dbC5 (by decide) (by decide)).1 1 1 2

/-! ### Claim C8 -/

/-- Fixture for C8: one order that has already been paid. -/
def dbC8 : DB :=
  { products := [], cartItems := [],
    orders :=
      [{ id := 1, order_code := "ORD1", user_id := 1, payment_mode := "COD",
         payment_status := "Paid", total_amount := 14 }],
    orderItems := [], nextCartItemId := 1, nextOrderId := 2, nextOrderItemId := 1 }

/-- C8 counterexample: the claim says no status update moves an order
from Paid back to Pending, but the route accepts "Pending" regardless of
the current status and also reports no InvalidTransition error for an
unrecognized value. -/
theorem C8_counterexample :
    (admin_update_order_status dbC8 true 1 (some "Pending")).1 = CartResult.ok ∧
    (admin_update_order_status dbC8 true 1 (some "Pending")).2.orders.map
      Order.payment_status = ["Pending"] ∧
    dbC8.orders.map Order.payment_status = ["Paid"] ∧
    admin_update_order_status dbC8 true 1 (some "Refunded") = (.ok, dbC8) := by decide

/-- C8 amended: the route fails with 403 for a non-admin and 404 for a
missing order; a status value other than "Pending" or "Paid" (or an
absent field) is silently ignored with no error and no change; an
accepted value is written unconditionally, so an admin can move an order
from Paid back to Pending; order lines and totals are never touched. -/
theorem C8_status_update_amended (db : DB) (a : Bool) (oid : Nat) (ns : Option String) :
    (a = false → admin_update_order_status db a oid ns = (.forbidden, db)) ∧
    (a = true → findOrder db oid = none →
      admin_update_order_status db a oid ns = (.notFound, db)) ∧
    (∀ s, a = true → (findOrder db oid).isSome → ns = some s →
      s ≠ "Pending" → s ≠ "Paid" → admin_update_order_status db a oid ns = (.ok, db)) ∧
    (a = true → (findOrder db oid).isSome → ns = none →
      admin_update_order_status db a oid ns = (.ok, db)) ∧
    (∀ s, a = true → (findOrder db oid).isSome → ns = some s →
      (s = "Pending" ∨ s = "Paid") →
      ∃ db', admin_update_order_status db a oid ns = (.ok, db') ∧
        db'.orders = db.orders.map
          (fun o => if o.id == oid then { o with payment_status := s } else o) ∧
        db'.orderItems = db.orderItems ∧
        ∀ o ∈ db.orders, o.id = oid → ∃ o' ∈ db'.orders,
          o'.id = o.id ∧ o'.total_amount = o.total_amount ∧ o'.payment_status = s) := by
  refine ⟨?_, ?_, ?_, ?_, ?_⟩
  · intro ha
    subst ha
    simp [admin_update_order_status]
  · intro ha hnone
    subst ha
    simp [admin_update_order_status, hnone]
  · intro s ha hsome hns hne1 hne2
    subst ha
    subst hns
    rcases Option.isSome_iff_exists.mp hsome with ⟨o0, ho0⟩
    simp [admin_update_order_status, ho0, hne1, hne2]
  · intro ha hsome hns
    subst ha
    subst hns
    rcases Option.isSome_iff_exists.mp hsome with ⟨o0, ho0⟩
    simp [admin_update_order_status, ho0]
  · intro s ha hsome hns hvalid
    subst ha
    subst hns
    rcases Option.isSome_iff_exists.mp hsome with ⟨o0, ho0⟩
    have hcond : (s == "Pending" || s == "Paid") = true := by
      rcases hvalid with rfl | rfl <;> simp
    refine ⟨{ db with orders := db.orders.map (fun o => if o.id == oid then { o with payment_status := s } else o) },
      ?_, rfl, rfl, ?_⟩
    · simp [admin_update_order_status, ho0, hcond]
    · intro o hmem hid
      refine ⟨{ o with payment_status := s }, ?_, rfl, rfl, rfl⟩
      have hfo : (fun o2 => if o2.id == oid then { o2 with payment_status := s } else o2) o =
          { o with payment_status := s } := by
        simp [hid]
      show { o with payment_status := s } ∈ db.orders.map
        (fun o2 => if o2.id == oid then { o2 with payment_status := s } else o2)
      rw [← hfo]
      exact List.mem_map_of_mem _ hmem

/-- C8 witness: the amended behavior applied to a paid order moved back
to Pending. -/
theorem C8_witness :
    ∃ db', admin_update_order_status dbC8 true 1 (some "Pending") = (.ok, db') ∧
      db'.orders = dbC8.orders.map
        (fun o => if o.id == 1 then { o with payment_status := "Pending" } else o) ∧
      db'.orderItems = dbC8.orderItems ∧
      ∀ o ∈ dbC8.orders, o.id = 1 → ∃ o' ∈ db'.orders,
        o'.id = o.id ∧ o'.total_amount = o.total_amount ∧ o'.payment_status = "Pending" :=
  (C8_status_update_amended dbC8 true 1 (some "Pending")).2.2.2.2 "Pending"
    rfl (by decide) rfl (Or.inl rfl)

/-! ### Claim C9 -/

/-- Fixture for C9: one cart line owned by user 2. -/
def dbC9 : DB :=
  { products :=
      [{ id := 1, name := "A", mrp := 9, price := 7, stock := 5, image := "i", description := "d" }],
    cartItems := [{ id := 1, user_id := 2, product_id := 1, quantity := 1 }],
    orders := [], orderItems := [],
    nextCartItemId := 2, nextOrderId := 1, nextOrderItemId := 1 }

/-- C9 counterexample: the claim says removing an already-removed cart
line succeeds, but the route answers a second removal of the same line
with a 404, not success. -/
theorem C9_counterexample :
    (remove_cart_item dbC9 2 1).1 = CartResult.ok ∧
    remove_cart_item (remove_cart_item dbC9 2 1).2 2 1 =
      (CartResult.notFound, (remove_cart_item dbC9 2 1).2) := by decide

/-- C9 amended: removing a nonexistent or already-removed line fails
with 404 (get_or_404) rather than succeeding idempotently; removing a
line owned by another user fails with 403 and changes nothing; a
successful removal deletes exactly that line and leaves the cart of
every other user unchanged. -/
theorem C9_removal_amended (db : DB) (uid iid : Nat)
    (hids : db.cartItems.Pairwise (fun a b => a.id ≠ b.id)) :
    (findCartItem db iid = none → remove_cart_item db uid iid = (.notFound, db)) ∧
    (∀ item, findCartItem db iid = some item → item.user_id ≠ uid →
      remove_cart_item db uid iid = (.forbidden, db)) ∧
    (∀ item, findCartItem db iid = some item → item.user_id = uid →
      remove_cart_item db uid iid =
        (.ok, { db with cartItems := db.cartItems.filter (fun i => !(i.id == item.id)) }) ∧
      ∀ u, u ≠ uid → cartFor (remove_cart_item db uid iid).2 u = cartFor db u) := by
  refine ⟨?_, ?_, ?_⟩
  · intro h
    simp [remove_cart_item, h]
  · intro item hfound hne
    have hbne : (item.user_id != uid) = true := by simp [hne]
    simp [remove_cart_item, hfound, hbne]
  · intro item hfound hequ
    have hbne : (item.user_id != uid) = false := by simp [hequ]
    constructor
    · simp [remove_cart_item, hfound, hbne]
    · intro u hu
      have hres : (remove_cart_item db uid iid).2.cartItems =
          db.cartItems.filter (fun i => !(i.id == item.id)) := by
        simp [remove_cart_item, hfound, hbne]
      unfold cartFor
      rw [hres, List.filter_filter]
      refine List.filter_congr ?_
      intro x hx
      by_cases hxu : (x.user_id == u) = true
      · have hxid : (x.id == item.id) = false := by
          rw [beq_eq_false_iff_ne]
          intro hcontra
          have hx_eq : x = item :=
            eq_of_pairwise_key CartItem.id hids hx
              (List.mem_of_find?_eq_some hfound) hcontra
          have hxuid : x.user_id = u := by simpa using hxu
          rw [hx_eq] at hxuid
          exact hu (hxuid.symm.trans hequ)
        simp [hxu, hxid]
      · have hxu' : (x.user_id == u) = false := by
          cases hb : (x.user_id == u)
          · rfl
          · exact absurd hb hxu
        simp [hxu']

/-- C9 witness: 404 on a missing line, 403 on a foreign line, and a
successful removal leaving the cart of another user untouched. -/
theorem C9_witness :
    remove_cart_item dbC9 1 99 = (.notFound, dbC9) ∧
    remove_cart_item dbC9 1 1 = (.forbidden, dbC9) ∧
    cartFor (remove_cart_item dbC9 2 1).2 1 = cartFor dbC9 1 :=
  ⟨(C9_removal_amended dbC9 1 99 (by decide)).1 (by decide),
   (C9_removal_amended dbC9 1 1 (by decide)).2.1
     { id := 1, user_id := 2, product_id := 1, quantity := 1 } (by decide) (by decide),
   ((C9_removal_amended dbC9 2 1 (by decide)).2.2
     { id := 1, user_id := 2, product_id := 1, quantity := 1 } (by decide) (by decide)).2
     1 (by decide)⟩
